import Mathlib

/-!
# Session orchestrator of `server.js`

A shallow embedding of the session manager of `src/server.js`: the `Session`
class, the global `sessions` map, the HTTP handlers that drive them, the proxy
router and the idle-session reaper.

Conventions of the embedding.

* The global `sessions` (a JavaScript `Map` from session id to `Session`
  object) is a list of sessions in insertion order, keyed by the `id` field:
  the only `sessions.set(id, session)` of the program stores a session built
  by `new Session(id)`, so the key of an entry is the `id` of its value.
* JavaScript objects are shared by reference.  A method is a function that
  takes the receiver `self` and returns the mutated receiver; the handler
  that called it stores the result back in the registry entry of the same id
  (`Registry.store`), which is a no-op when the object is no longer
  registered.
* `null` is `none`.  Timestamps (`Date.now()`) are integers.
* A string is a Unicode text.  Where the program measures or cuts a string
  (`length`, `substring`) it does so on its UTF-16 code units (`utf16`); the
  searches of the program (`includes`, the url pattern) look for ASCII text,
  for which code units and characters agree.
* Child processes are identified by the order in which they were spawned.
* Console logging is cosmetic and is modelled only in `runCode`, where the
  truncation of the compiler diagnostics is at stake.
-/

namespace GraphicsServer

/-! ## Configuration -/

def BASE_DISPLAY : Nat := 100
def BASE_XPRA_PORT : Nat := 10000
def MAX_SESSIONS : Nat := 5
def SESSION_TIMEOUT : Int := 10 * 60 * 1000

/-! ## Data model -/

/-- Handle of the display-server child process: the process it stands for and
the flag `killed`, which Node sets once a signal was delivered through the
handle. -/
structure XpraProcess where
  pid : Nat
  killed : Bool
deriving DecidableEq, Repr

/-- Fields of the `Session` class (nickname and colour are cosmetic; the
workspace is a function of `id`). -/
structure Session where
  id : String
  displayNum : Option Nat
  port : Option Nat
  xpraProcess : Option XpraProcess
  wineProcess : Option Nat
  lastActivity : Int
  streamReady : Bool
deriving DecidableEq, Repr

/-- The object built by `new Session(id)` at time `now`. -/
def Session.new (id : String) (now : Int) : Session :=
  { id := id, displayNum := none, port := none, xpraProcess := none,
    wineProcess := none, lastActivity := now, streamReady := false }

/-- The global `sessions` map, in insertion order. -/
abbrev Registry := List Session

namespace Registry

/-- Keys are unique, as in every JavaScript `Map`. -/
def WF (m : Registry) : Prop := (m.map Session.id).Nodup

/-- Lookup `sessions.get(id)`. -/
def get (m : Registry) (id : String) : Option Session :=
  m.find? (fun s => s.id == id)

/-- Membership test `sessions.has(id)`. -/
def has (m : Registry) (id : String) : Bool :=
  m.any (fun s => s.id == id)

/-- Insertion `sessions.set(s.id, s)`: an existing key keeps its position and
gets the new value, a new key is appended. -/
def set (m : Registry) (s : Session) : Registry :=
  if m.has s.id then m.map (fun t => if t.id == s.id then s else t) else m ++ [s]

/-- Removal `sessions.delete(id)`. -/
def delete (m : Registry) (id : String) : Registry :=
  m.filter (fun s => s.id != id)

/-- Write-back of a mutated object: the entry of the same id, if there is one,
now shows the new field values. -/
def store (m : Registry) (s : Session) : Registry :=
  m.map (fun t => if t.id == s.id then s else t)

end Registry

/-! ## Slot allocation -/

/-- The test `Array.from(sessions.values()).some(s => s.displayNum === proposedDisplay)`. -/
def isUsed (sessions : Registry) (proposedDisplay : Nat) : Bool :=
  sessions.any (fun s => s.displayNum == some proposedDisplay)

/-- The `while (offset < MAX_SESSIONS)` loop of `allocateResources`, entered
with the given `offset`. -/
def allocateFrom (sessions : Registry) (self : Session) (offset : Nat) : Bool × Session :=
  if offset < MAX_SESSIONS then
    let proposedDisplay := BASE_DISPLAY + offset
    if !isUsed sessions proposedDisplay then
      (true, { self with displayNum := some proposedDisplay,
                         port := some (BASE_XPRA_PORT + offset) })
    else
      allocateFrom sessions self (offset + 1)
  else
    (false, self)
termination_by MAX_SESSIONS - offset
decreasing_by omega

/-- Method `Session.allocateResources`: the returned flag and the receiver
after the call. -/
def Session.allocateResources (sessions : Registry) (self : Session) : Bool × Session :=
  allocateFrom sessions self 0

/-- Receiver with the slot of offset `k`. -/
def Session.withSlot (self : Session) (k : Nat) : Session :=
  { self with displayNum := some (BASE_DISPLAY + k), port := some (BASE_XPRA_PORT + k) }

/-- Template substitution of a number field that may be `null`. -/
def portString : Option Nat → String
  | some p => toString p
  | none => "null"

/-! ## Child processes, activity and teardown -/

/-- Global state: the `sessions` map and the child processes of the server.
`alive` lists the processes that have not exited, `nextPid` numbers the next
process to be spawned. -/
structure World where
  sessions : Registry
  alive : List Nat
  nextPid : Nat
deriving DecidableEq, Repr

/-- Call `process.kill(pid, 'SIGKILL')`: terminates a live process, throws
when there is no such process. -/
def processKill (alive : List Nat) (pid : Nat) : Except String (List Nat) :=
  if pid ∈ alive then .ok (alive.filter (fun p => p != pid)) else .error "kill ESRCH"

/-- Method `Session.updateActivity`, called at time `now`. -/
def Session.updateActivity (self : Session) (now : Int) : Session :=
  { self with lastActivity := now }

/-- Method `Session.cleanup`.  The display process gets SIGTERM through its
handle unless the handle is already flagged (`kill` flags the handle when the
process has not exited; the exit itself is a later event); the runtime process
gets SIGKILL inside `try`/`catch`; the entry keyed by `this.id` leaves the
registry.  The shell commands and the two timers (SIGKILL escalation,
workspace removal) act outside the state modelled here.  The result is
`.error` when an exception escapes the method. -/
def Session.cleanup (self : Session) (w : World) : Except String (Session × World) := do
  let xpraProcess :=
    match self.xpraProcess with
    | some p =>
      if !p.killed then (if p.pid ∈ w.alive then some { p with killed := true } else some p)
      else some p
    | none => none
  let alive ←
    match self.wineProcess with
    | some pid =>
      (match processKill w.alive pid with
       | .ok a => pure a
       | .error _ => pure w.alive)
    | none => pure w.alive
  pure ({ self with xpraProcess := xpraProcess },
        { w with alive := alive, sessions := w.sessions.delete self.id })

/-! ## Readiness protocol of `startXpra` -/

/-- The test `output.includes(marker)`. -/
def includes (output marker : String) : Bool :=
  output.data.tails.any (fun t => marker.data.isPrefixOf t)

/-- An event of one launch of the display process. -/
inductive StartupEvent where
  | data (output : String)
  | exit (code : Option Int)
  | timer
deriving DecidableEq, Repr

/-- A call of one of the two callbacks of the promise of `startXpra`. -/
inductive Settle where
  | resolve
  | reject (message : String)
deriving DecidableEq, Repr

/-- Closure state of one launch: the variables `resolved` and `outputBuffer`,
and the calls of `resolve` and `reject` made so far, oldest first. -/
structure Launch where
  resolved : Bool
  outputBuffer : String
  calls : List Settle
deriving DecidableEq, Repr

/-- State right after the handlers are installed. -/
def Launch.start : Launch := { resolved := false, outputBuffer := "", calls := [] }

/-- Callback of the lock-removal `exec` in `startXpra`: the display process is
spawned, its handle stored on the session, and the handlers are installed with
fresh closure variables. -/
def spawnXpra (self : Session) (w : World) : Launch × Session × World :=
  (Launch.start,
   { self with xpraProcess := some { pid := w.nextPid, killed := false } },
   { w with alive := w.nextPid :: w.alive, nextPid := w.nextPid + 1 })

/-- Handler `onReady` of the stdout and stderr streams. -/
def onReady (l : Launch) (self : Session) (output : String) : Launch × Session :=
  let l1 := { l with outputBuffer := l.outputBuffer ++ output }
  if !l1.resolved && includes output "xpra is ready" then
    ({ l1 with resolved := true, calls := l1.calls ++ [Settle.resolve] },
     { self with streamReady := true })
  else
    (l1, self)

/-- Handler of the `exit` event of the display process. -/
def onExit (l : Launch) (self : Session) (w : World) (_code : Option Int) :
    Except String (Launch × Session × World) := do
  let l1 :=
    if !l.resolved then
      { l with calls := l.calls ++ [Settle.reject "Xpra crashed during startup"] }
    else l
  let (self1, w1) ← self.cleanup w
  pure (l1, self1, w1)

/-- Callback of the 15 s timer. -/
def onTimeout (l : Launch) : Launch :=
  if !l.resolved then
    { l with calls := l.calls ++ [Settle.reject "Xpra startup timeout after 15s"] }
  else l

/-- One startup event handled on the launch `l` of the session object `self`;
a field written on the object shows in its registry entry, and the process
that exits is no longer alive when its `exit` handler runs. -/
def startupStep (st : Launch × Session × World) (e : StartupEvent) :
    Except String (Launch × Session × World) :=
  match e with
  | .data output =>
    let (l1, self1) := onReady st.1 st.2.1 output
    pure (l1, self1, { st.2.2 with sessions := st.2.2.sessions.store self1 })
  | .exit code =>
    let alive :=
      match st.2.1.xpraProcess with
      | some p => st.2.2.alive.filter (fun q => q != p.pid)
      | none => st.2.2.alive
    onExit st.1 st.2.1 { st.2.2 with alive := alive } code
  | .timer => pure (onTimeout st.1, st.2.1, st.2.2)

/-- The startup events of one launch, handled in order. -/
def startupRun (st : Launch × Session × World) :
    List StartupEvent → Except String (Launch × Session × World)
  | [] => pure st
  | e :: es => do
    let st1 ← startupStep st e
    startupRun st1 es

/-! ## Execution pipeline -/

/-- UTF-16 code units of one character: itself below `0x10000`, a surrogate
pair above. -/
def utf16Char (c : Char) : List Nat :=
  if c.toNat < 0x10000 then [c.toNat]
  else [0xD800 + (c.toNat - 0x10000) / 0x400, 0xDC00 + (c.toNat - 0x10000) % 0x400]

/-- UTF-16 code units of a text: the elements of the JavaScript string, whose
`length` is their number. -/
def utf16 (s : String) : List Nat := s.data.flatMap utf16Char

/-- One line of the console: level, message, and the code units of the
details. -/
structure LogEntry where
  level : String
  message : String
  details : List Nat
deriving DecidableEq, Repr

/-- The call `s.substring(0, n)`: the first `n` code units of `s`. -/
def substring0 (s : String) (n : Nat) : List Nat := (utf16 s).take n

/-- Default `maxBuffer` of `child_process.exec`, in force at the compiler call,
which passes no options. -/
def EXEC_MAX_BUFFER : Nat := 1024 * 1024

/-- Answers of the environment during one `runCode`: the clock, the error
thrown by `fs.writeFile` if any, the callback arguments of the compiler's
`exec`, whether the Wine template is copied, and the error thrown while the
Wine prefix is prepared if any. -/
structure RunEnv where
  now : Int
  writeError : Option String
  compileErr : Bool
  stdout : String
  stderr : String
  copyTemplate : Bool
  prepareError : Option String
deriving DecidableEq, Repr

/-- What `exec` guarantees of the two texts it hands to its callback: it stops
collecting a stream at `maxBuffer`, so neither has more code units than
that. -/
def ExecDelivered (env : RunEnv) : Prop :=
  (utf16 env.stdout).length ≤ EXEC_MAX_BUFFER ∧ (utf16 env.stderr).length ≤ EXEC_MAX_BUFFER

/-- The object `runCode` returns. -/
inductive RunResult where
  | success (pid : Nat)
  | failure (output : String)
deriving DecidableEq, Repr

/-- Effect of one `runCode`: the returned object, the receiver and the global
state afterwards, and the lines logged. -/
structure RunOutcome where
  result : RunResult
  self : Session
  world : World
  logs : List LogEntry
deriving DecidableEq, Repr

/-- The expression `stderr || stdout || 'Compilation failed'`. -/
def errorMsg (env : RunEnv) : String :=
  if env.stderr ≠ "" then env.stderr
  else if env.stdout ≠ "" then env.stdout
  else "Compilation failed"

/-- The block `if (this.wineProcess) ...` that kills the previous program. -/
def killPrevious (self : Session) (w : World) : Session × World × List LogEntry :=
  match self.wineProcess with
  | some pid =>
    match processKill w.alive pid with
    | .ok a =>
      ({ self with wineProcess := none }, { w with alive := a },
       [⟨"INFO", "Killed previous Wine process", utf16 ""⟩])
    | .error _ =>
      ({ self with wineProcess := none }, w,
       [⟨"DEBUG", "Previous Wine process already terminated", utf16 ""⟩])
  | none => (self, w, [])

/-- The `try` block of `runCode`: write the source, compile, prepare the Wine
prefix, spawn the program.  An exception carries the thrown value; nothing of
the state is written before the last point that can throw. -/
def runBody (self : Session) (w : World) (env : RunEnv) :
    Except String (Nat × Session × World) × List LogEntry :=
  match env.writeError with
  | some e => (.error e, [])
  | none =>
    if env.compileErr then
      (.error (errorMsg env),
       [⟨"ERROR", "Compilation failed", substring0 (errorMsg env) 100⟩])
    else
      let logCompile : List LogEntry :=
        [⟨"SUCCESS", "Compilation successful", utf16 "Output: program.exe"⟩]
      let logCopy : List LogEntry :=
        if env.copyTemplate then
          [⟨"INFO", "Copying Wine template", utf16 "First run optimization"⟩]
        else []
      match env.prepareError with
      | some e => (.error e, logCompile ++ logCopy)
      | none =>
        let pid := w.nextPid
        (.ok (pid, { self with wineProcess := some pid },
              { w with alive := pid :: w.alive, nextPid := w.nextPid + 1 }),
         logCompile ++ logCopy ++
           [⟨"INFO", "Launching program", utf16 ("Display :" ++ portString self.displayNum)⟩,
            ⟨"SUCCESS", "Program started", utf16 ("PID: " ++ toString pid)⟩])

/-- Method `Session.runCode`, run to completion. -/
def Session.runCode (self : Session) (w : World) (code : String) (env : RunEnv) : RunOutcome :=
  let self1 := self.updateActivity env.now
  let log1 : List LogEntry :=
    [⟨"INFO", "Compilation started",
      utf16 ("Source: " ++ toString (utf16 code).length ++ " chars")⟩]
  let (self2, w2, log2) := killPrevious self1 w
  match runBody self2 w2 env with
  | (.ok (pid, self3, w3), log3) =>
    { result := .success pid, self := self3, world := w3, logs := log1 ++ log2 ++ log3 }
  | (.error err, log3) =>
    { result := .failure err, self := self2, world := w2,
      logs := log1 ++ log2 ++ log3 ++ [⟨"ERROR", "Execution failed", substring0 err 200⟩] }

/-! ## HTTP handlers -/

/-- Method `Session.start` up to its `await`: the thrown message when no slot
is free, otherwise the receiver holding its slot. -/
def Session.start (sessions : Registry) (self : Session) : Except String Session :=
  let (allocated, self1) := self.allocateResources sessions
  if !allocated then .error "Server at maximum capacity. Try again later."
  else .ok self1

/-- Handler of `POST /api/init` up to the `await` of the display process:
`.error msg` is the 503 response sent when `start` throws at once, `.ok s`
the session whose display process is being started. -/
def apiInit (sessions : Registry) (id : String) (now : Int) :
    Except String Session × Registry :=
  let session := Session.new id now
  let sessions1 := sessions.set session
  match session.start sessions1 with
  | .error msg => (.error msg, sessions1)
  | .ok session1 => (.ok session1, sessions1.store session1)

/-- Response of `POST /api/run`. -/
inductive RunResponse where
  | expired
  | ran (result : RunResult)
deriving DecidableEq, Repr

/-- Handler of `POST /api/run`. -/
def apiRun (w : World) (sessionId code : String) (env : RunEnv) : RunResponse × World :=
  match w.sessions.get sessionId with
  | none => (.expired, w)
  | some session =>
    let out := session.runCode w code env
    (.ran out.result, { out.world with sessions := out.world.sessions.store out.self })

/-- Handler of `POST /api/heartbeat` at time `now`: the `alive` flag of the
response and the registry afterwards. -/
def apiHeartbeat (sessions : Registry) (sessionId : String) (now : Int) : Bool × Registry :=
  match sessions.get sessionId with
  | some session => (true, sessions.store (session.updateActivity now))
  | none => (false, sessions)

/-! ## Stream router -/

/-- Character class `[a-zA-Z0-9-]`. -/
def isIdChar (c : Char) : Bool :=
  ('a' ≤ c && c ≤ 'z') || ('A' ≤ c && c ≤ 'Z') || ('0' ≤ c && c ≤ '9') || c == '-'

/-- Capture group 1 of `req.url.match(/^\/session\/([a-zA-Z0-9-]+)\/stream\//)`.
The class excludes `/`, so the group is the longest run of class characters
after the prefix. -/
def matchSessionUrl (url : String) : Option String :=
  if "/session/".data.isPrefixOf url.data then
    let rest := url.data.drop "/session/".data.length
    let group := rest.takeWhile isIdChar
    let after := rest.dropWhile isIdChar
    if !group.isEmpty && "/stream/".data.isPrefixOf after then some ⟨group⟩ else none
  else none


/-- The `router` option of the proxy. -/
def router (sessions : Registry) (url : String) : Option String :=
  match matchSessionUrl url with
  | some id =>
    match sessions.get id with
    | some session =>
      if session.streamReady then some ("http://127.0.0.1:" ++ portString session.port)
      else none
    | none => none
  | none => none

/-! ## Reaper -/

/-- The `for (const [id, session] of sessions)` loop of the reaper over the
entries still to visit; an entry deleted earlier in the pass is skipped. -/
def reaperLoop (now : Int) : List Session → World → Except String World
  | [], w => pure w
  | session :: rest, w =>
    if w.sessions.has session.id then
      if now - session.lastActivity > SESSION_TIMEOUT then do
        let (_, w1) ← session.cleanup w
        reaperLoop now rest w1
      else reaperLoop now rest w
    else reaperLoop now rest w

/-- One firing of the `setInterval` callback at time `now`. -/
def reaper (now : Int) (w : World) : Except String World :=
  reaperLoop now w.sessions w

/-! ## The server as a transition system -/

/-- An operation of the server on its global state. -/
inductive Op where
  | init (id : String) (now : Int)
  | spawned (id : String)
  | startup (id : String) (l : Launch) (e : StartupEvent)
  | cleanup (self : Session)
  | heartbeat (sessionId : String) (now : Int)
  | run (sessionId code : String) (env : RunEnv)
  | reap (now : Int)
deriving DecidableEq, Repr

/-- Effect of one operation.  `init` is the synchronous part of the handler
of `POST /api/init` (insertion, then allocation); `spawned` is the callback
that spawns the display process of a registered session; `startup` is an
event of the display process of a registered session, in any closure state;
`cleanup` is the teardown of any session object. -/
def step (w : World) : Op → World
  | .init id now => { w with sessions := (apiInit w.sessions id now).2 }
  | .spawned id =>
    match w.sessions.get id with
    | some self =>
      let st := spawnXpra self w
      { st.2.2 with sessions := st.2.2.sessions.store st.2.1 }
    | none => w
  | .startup id l e =>
    match w.sessions.get id with
    | some self =>
      (match startupStep (l, self, w) e with
       | .ok st => st.2.2
       | .error _ => w)
    | none => w
  | .cleanup self =>
    match self.cleanup w with
    | .ok st => st.2
    | .error _ => w
  | .heartbeat sessionId now =>
    { w with sessions := (apiHeartbeat w.sessions sessionId now).2 }
  | .run sessionId code env => (apiRun w sessionId code env).2
  | .reap now =>
    match reaper now w with
    | .ok w1 => w1
    | .error _ => w

/-- State of the server when it starts: no session, no child process. -/
def World.empty : World := { sessions := [], alive := [], nextPid := 0 }

/-- The operations of a trace, applied in order. -/
def exec (w : World) (ops : List Op) : World := ops.foldl step w

/-- Sessions of the registry that hold a slot. -/
def slotHolders (sessions : Registry) : List Session :=
  sessions.filter (fun s => s.displayNum.isSome)

/-! ## Runtime processes of one session -/

/-- What happens to the runtime processes of one session object: a `runCode`
that runs to completion, or the exit of a process. -/
inductive RuntimeEvent where
  | run (code : String) (env : RunEnv)
  | exited (pid : Nat)
deriving DecidableEq, Repr

/-- A session object, the global state, and the environment and result of the
latest `runCode` on the object. -/
structure RuntimeState where
  self : Session
  world : World
  last : Option (RunEnv × RunResult)
deriving DecidableEq, Repr

/-- Effect of one runtime event. -/
def runtimeStep (st : RuntimeState) : RuntimeEvent → RuntimeState
  | .run code env =>
    let out := st.self.runCode st.world code env
    { self := out.self, world := out.world, last := some (env, out.result) }
  | .exited pid =>
    { st with world := { st.world with alive := st.world.alive.filter (fun p => p != pid) } }

/-- The runtime events of a trace, applied in order. -/
def runtimeRun (st : RuntimeState) (events : List RuntimeEvent) : RuntimeState :=
  events.foldl runtimeStep st

/-- Live processes spawned since the process counter was `n0`. -/
def spawnedSince (n0 : Nat) (w : World) : List Nat :=
  w.alive.filter (fun p => decide (n0 ≤ p))

/-! ## Sample states -/

/-- A session that holds the slot of offset `k`, its display server ready. -/
def sampleSession (id : String) (k : Nat) : Session :=
  { id := id, displayNum := some (BASE_DISPLAY + k), port := some (BASE_XPRA_PORT + k),
    xpraProcess := some { pid := k, killed := false }, wineProcess := none,
    lastActivity := 0,
    streamReady := true }

/-- A registry at capacity: five sessions, one per slot. -/
def fullRegistry : Registry :=
  [sampleSession "a" 0, sampleSession "b" 1, sampleSession "c" 2, sampleSession "d" 3,
   sampleSession "e" 4]

/-- A world whose registry is at capacity. -/
def fullWorld : World := { sessions := fullRegistry, alive := [0, 1, 2, 3, 4], nextPid := 5 }

/-- A new session that holds the slot of offset 0 in an otherwise empty
registry, right after its display process was spawned. -/
def startingState : Launch × Session × World :=
  spawnXpra ((Session.new "s" 0).withSlot 0)
    { sessions := [(Session.new "s" 0).withSlot 0], alive := [], nextPid := 0 }

/-- Environment of a `runCode` whose compilation fails with the given
`stderr`. -/
def failingCompile (stderr : String) : RunEnv :=
  { now := 1, writeError := none, compileErr := true, stdout := "", stderr := stderr,
    copyTemplate := false, prepareError := none }

/-! ## Invariants -/

/-- Invariant of the runtime processes of one session object, relative to the
value `n0` of the process counter when the trace started: the processes
spawned since then and still alive are none, or the one whose handle is
`wineProcess`; after a failed `runCode` there is none, after a successful one
`wineProcess` is the handle of the process it spawned. -/
def RuntimeInv (n0 : Nat) (st : RuntimeState) : Prop :=
  n0 ≤ st.world.nextPid ∧
  (∀ p ∈ st.world.alive, p < st.world.nextPid) ∧
  (spawnedSince n0 st.world = [] ∨
    ∃ p, spawnedSince n0 st.world = [p] ∧ st.self.wineProcess = some p) ∧
  (∀ env r, st.last = some (env, r) →
    (∀ p, r = .success p → st.self.wineProcess = some p ∧ n0 ≤ p) ∧
    (∀ output, r = .failure output → spawnedSince n0 st.world = []) ∧
    (env.writeError = none → env.compileErr = false → env.prepareError = none →
      ∃ p, r = .success p))

/-- A runtime trace: a first program, a second one that replaces it, the late
exit of the first. -/
def sampleTrace : List RuntimeEvent :=
  [.run "a" { failingCompile "" with compileErr := false },
   .run "b" { failingCompile "" with compileErr := false },
   .exited 5]

/-- The slot fields of a session are both null, or the display and the port
of one offset below `MAX_SESSIONS`. -/
def HoldsValidSlot (s : Session) : Prop :=
  (s.displayNum = none ∧ s.port = none) ∨
  ∃ k, k < MAX_SESSIONS ∧ s.displayNum = some (BASE_DISPLAY + k) ∧
    s.port = some (BASE_XPRA_PORT + k)

/-- Two entries of the registry have different keys and do not hold the same
display. -/
def Apart (s t : Session) : Prop :=
  s.id ≠ t.id ∧ ∀ d, s.displayNum = some d → t.displayNum ≠ some d

/-- Invariant of the registry: every entry has valid slot fields, and any two
entries are apart. -/
def SlotInv (m : Registry) : Prop :=
  (∀ s ∈ m, HoldsValidSlot s) ∧ m.Pairwise Apart

/-- A trace of the server: six initiations, a heartbeat, a pass of the
reaper, one more initiation. -/
def sampleOps : List Op :=
  [.init "a" 0, .init "b" 0, .init "c" 0, .init "d" 0, .init "e" 0, .init "f" 1,
   .heartbeat "e" 1, .reap 600001, .init "g" 600002]

/-! ## Lemmas on allocation -/

theorem isUsed_iff (sessions : Registry) (d : Nat) :
    isUsed sessions d = true ↔ ∃ s ∈ sessions, s.displayNum = some d := by
  simp [isUsed]

theorem allocateFrom_cases (sessions : Registry) (self : Session) (n : Nat) :
    ∀ offset, MAX_SESSIONS - offset = n →
      (∃ k, offset ≤ k ∧ k < MAX_SESSIONS ∧ isUsed sessions (BASE_DISPLAY + k) = false ∧
          (∀ j, offset ≤ j → j < k → isUsed sessions (BASE_DISPLAY + j) = true) ∧
          allocateFrom sessions self offset = (true, self.withSlot k)) ∨
      ((∀ j, offset ≤ j → j < MAX_SESSIONS → isUsed sessions (BASE_DISPLAY + j) = true) ∧
          allocateFrom sessions self offset = (false, self)) := by
  induction n with
  | zero =>
    intro offset h
    right
    have hge : ¬ offset < MAX_SESSIONS := by omega
    refine ⟨fun j h1 h2 => absurd (lt_of_le_of_lt h1 h2) hge, ?_⟩
    rw [allocateFrom]; simp [hge]
  | succ n ih =>
    intro offset h
    have hlt : offset < MAX_SESSIONS := by omega
    by_cases hu : isUsed sessions (BASE_DISPLAY + offset) = true
    · have hrec : allocateFrom sessions self offset = allocateFrom sessions self (offset + 1) := by
        rw [allocateFrom]; simp [hlt, hu]
      rcases ih (offset + 1) (by omega) with ⟨k, hk1, hk2, hk3, hk4, hk5⟩ | ⟨h1, h2⟩
      · left
        refine ⟨k, by omega, hk2, hk3, ?_, by rw [hrec, hk5]⟩
        intro j hj1 hj2
        rcases Nat.eq_or_lt_of_le hj1 with e | l
        · rw [← e]; exact hu
        · exact hk4 j l hj2
      · right
        refine ⟨?_, by rw [hrec, h2]⟩
        intro j hj1 hj2
        rcases Nat.eq_or_lt_of_le hj1 with e | l
        · rw [← e]; exact hu
        · exact h1 j l hj2
    · left
      have hf : isUsed sessions (BASE_DISPLAY + offset) = false := by
        simpa using hu
      refine ⟨offset, le_refl _, hlt, hf, fun j h1 h2 => absurd h2 (by omega), ?_⟩
      rw [allocateFrom]; simp [hlt, hf, Session.withSlot]

/-! ## Lemmas on the registry -/

theorem Registry.mem_delete (m : Registry) (id : String) (t : Session) :
    t ∈ m.delete id ↔ t ∈ m ∧ t.id ≠ id := by
  simp [Registry.delete]

theorem Registry.WF.eq_of_id {m : Registry} (h : m.WF) {s t : Session}
    (hs : s ∈ m) (ht : t ∈ m) (e : s.id = t.id) : s = t :=
  List.inj_on_of_nodup_map h hs ht e

theorem Registry.WF.of_delete {m : Registry} (h : m.WF) (id : String) : (m.delete id).WF := by
  unfold Registry.WF Registry.delete
  exact (List.Nodup.sublist (List.Sublist.map _ (List.filter_sublist m)) h)

theorem Registry.store_ids (m : Registry) (s : Session) :
    (m.store s).map Session.id = m.map Session.id := by
  unfold Registry.store
  rw [List.map_map]
  apply List.map_congr_left
  intro t _
  by_cases h : t.id = s.id
  · simp [h]
  · simp [h]

theorem Registry.WF.of_store {m : Registry} (h : m.WF) (s : Session) : (m.store s).WF := by
  unfold Registry.WF
  rw [Registry.store_ids]
  exact h

theorem Registry.has_iff (m : Registry) (id : String) :
    m.has id = true ↔ ∃ s ∈ m, s.id = id := by
  simp [Registry.has]

theorem Registry.get_some {m : Registry} {id : String} {s : Session}
    (h : m.get id = some s) : s ∈ m ∧ s.id = id := by
  unfold Registry.get at h
  refine ⟨List.mem_of_find?_eq_some h, ?_⟩
  have := List.find?_some h
  simpa using this

theorem Registry.get_of_has {m : Registry} {id : String} (h : m.has id = true) :
    ∃ s, m.get id = some s := by
  rw [Registry.has_iff] at h
  obtain ⟨s, hs, e⟩ := h
  cases hg : m.get id with
  | some t => exact ⟨t, rfl⟩
  | none =>
    unfold Registry.get at hg
    rw [List.find?_eq_none] at hg
    exact absurd (by simpa using e) (hg s hs)

theorem Registry.get_none {m : Registry} {id : String} (h : m.get id = none) :
    ∀ s ∈ m, s.id ≠ id := by
  intro s hs e
  unfold Registry.get at h
  rw [List.find?_eq_none] at h
  exact h s hs (by simpa using e)

theorem Registry.mem_store {m : Registry} {s t : Session} (h : t ∈ m.store s) :
    t = s ∨ (t ∈ m ∧ t.id ≠ s.id) := by
  unfold Registry.store at h
  rw [List.mem_map] at h
  obtain ⟨u, hu, e⟩ := h
  by_cases c : u.id = s.id
  · left
    simpa [c] using e.symm
  · right
    have : u = t := by simpa [c] using e
    rw [← this]
    exact ⟨hu, c⟩

theorem Registry.mem_store_self {m : Registry} {s s0 : Session} (h0 : s0 ∈ m)
    (e : s0.id = s.id) : s ∈ m.store s := by
  unfold Registry.store
  rw [List.mem_map]
  exact ⟨s0, h0, by simp [e]⟩

theorem Registry.mem_store_other {m : Registry} {s t : Session} (ht : t ∈ m)
    (e : t.id ≠ s.id) : t ∈ m.store s := by
  unfold Registry.store
  rw [List.mem_map]
  exact ⟨t, ht, by simp [e]⟩

theorem cleanup_eq (self : Session) (w : World) :
    ∃ st, self.cleanup w = .ok st ∧ st.1.id = self.id ∧
      st.1.wineProcess = self.wineProcess ∧
      st.2.sessions = w.sessions.delete self.id ∧ st.2.nextPid = w.nextPid ∧
      (∀ p ∈ st.2.alive, p ∈ w.alive) := by
  rcases self with ⟨id, d, pt, x, wp, la, sr⟩
  cases wp with
  | none => exact ⟨_, rfl, rfl, rfl, rfl, rfl, fun p hp => hp⟩
  | some pid =>
    by_cases hm : pid ∈ w.alive
    · simp only [Session.cleanup, processKill, hm, if_true]
      exact ⟨_, rfl, rfl, rfl, rfl, rfl, fun p hp => (List.mem_filter.mp hp).1⟩
    · simp only [Session.cleanup, processKill, hm, if_false]
      exact ⟨_, rfl, rfl, rfl, rfl, rfl, fun p hp => hp⟩

/-! ## Slot allocation (C1) -/

theorem allocateResources_cases (sessions : Registry) (self : Session) :
    (∃ k, k < MAX_SESSIONS ∧ isUsed sessions (BASE_DISPLAY + k) = false ∧
        (∀ j, j < k → isUsed sessions (BASE_DISPLAY + j) = true) ∧
        self.allocateResources sessions = (true, self.withSlot k)) ∨
    ((∀ j, j < MAX_SESSIONS → isUsed sessions (BASE_DISPLAY + j) = true) ∧
        self.allocateResources sessions = (false, self)) := by
  rcases allocateFrom_cases sessions self (MAX_SESSIONS - 0) 0 rfl with
    ⟨k, _, h2, h3, h4, h5⟩ | ⟨h1, h2⟩
  · exact Or.inl ⟨k, h2, h3, fun j hj => h4 j (Nat.zero_le j) hj, h5⟩
  · exact Or.inr ⟨fun j hj => h1 j (Nat.zero_le j) hj, h2⟩

theorem isUsed_false_iff (sessions : Registry) (d : Nat) :
    isUsed sessions d = false ↔ ∀ s ∈ sessions, s.displayNum ≠ some d := by
  rw [← Bool.not_eq_true, isUsed_iff]
  constructor
  · intro h s hs e
    exact h ⟨s, hs, e⟩
  · rintro h ⟨s, hs, e⟩
    exact h s hs e

/-- C1: `allocateResources` either returns true and gives the receiver the
display `BASE_DISPLAY + k` and the port `BASE_XPRA_PORT + k` of the least
offset `k < MAX_SESSIONS` whose display no registered session has, or, when
each of the displays 100..104 belongs to a registered session, returns false
and leaves the receiver unchanged; and when all five slots are held, after the
teardown of the one holder of offset `j` the next allocation returns offset
`j`. -/
theorem allocateResources_least_free (sessions : Registry) (self : Session) :
    ((∃ k, k < MAX_SESSIONS ∧
        (∀ s ∈ sessions, s.displayNum ≠ some (BASE_DISPLAY + k)) ∧
        (∀ j, j < k → ∃ s ∈ sessions, s.displayNum = some (BASE_DISPLAY + j)) ∧
        self.allocateResources sessions =
          (true, { self with displayNum := some (BASE_DISPLAY + k),
                             port := some (BASE_XPRA_PORT + k) })) ∨
     ((∀ k, k < MAX_SESSIONS → ∃ s ∈ sessions, s.displayNum = some (BASE_DISPLAY + k)) ∧
        self.allocateResources sessions = (false, self))) ∧
    (∀ (w : World) (holder : Session) (j : Nat), w.sessions = sessions → sessions.WF →
      holder ∈ sessions → j < MAX_SESSIONS →
      holder.displayNum = some (BASE_DISPLAY + j) →
      (∀ t ∈ sessions, t.displayNum = some (BASE_DISPLAY + j) → t = holder) →
      (∀ k, k < MAX_SESSIONS → ∃ s ∈ sessions, s.displayNum = some (BASE_DISPLAY + k)) →
      ∃ st, holder.cleanup w = .ok st ∧
        self.allocateResources st.2.sessions =
          (true, { self with displayNum := some (BASE_DISPLAY + j),
                             port := some (BASE_XPRA_PORT + j) })) := by
  constructor
  · rcases allocateResources_cases sessions self with ⟨k, h1, h2, h3, h4⟩ | ⟨h1, h2⟩
    · left
      exact ⟨k, h1, (isUsed_false_iff _ _).mp h2,
        fun j hj => (isUsed_iff _ _).mp (h3 j hj), h4⟩
    · right
      exact ⟨fun k hk => (isUsed_iff _ _).mp (h1 k hk), h2⟩
  · intro w holder j hw hwf hmem hj hd huniq hfull
    obtain ⟨st, hst, _, _, hsess, _, _⟩ := cleanup_eq holder w
    refine ⟨st, hst, ?_⟩
    rw [hsess, hw]
    have hfree : isUsed (sessions.delete holder.id) (BASE_DISPLAY + j) = false := by
      rw [isUsed_false_iff]
      intro t ht e
      rw [Registry.mem_delete] at ht
      exact ht.2 (by rw [huniq t ht.1 e])
    have hothers : ∀ k, k < MAX_SESSIONS → k ≠ j →
        isUsed (sessions.delete holder.id) (BASE_DISPLAY + k) = true := by
      intro k hk hkj
      obtain ⟨s, hs, e⟩ := hfull k hk
      rw [isUsed_iff]
      refine ⟨s, (Registry.mem_delete _ _ _).mpr ⟨hs, ?_⟩, e⟩
      intro hid
      have hsh : s = holder := hwf.eq_of_id hs hmem hid
      rw [hsh, hd] at e
      injection e with e
      exact hkj (by omega)
    rcases allocateResources_cases (sessions.delete holder.id) self with
      ⟨k, h1, h2, _, h4⟩ | ⟨h1, _⟩
    · have hkj : k = j := by
        by_contra hne
        rw [hothers k h1 hne] at h2
        exact absurd h2 (by simp)
      rw [h4, hkj]
      rfl
    · rw [h1 j hj] at hfree
      exact absurd hfree (by simp)

theorem fullRegistry_full :
    ∀ k, k < MAX_SESSIONS → ∃ s ∈ fullRegistry, s.displayNum = some (BASE_DISPLAY + k) := by
  intro k hk
  have h5 : k < 5 := hk
  interval_cases k
  · exact ⟨sampleSession "a" 0, by simp [fullRegistry], rfl⟩
  · exact ⟨sampleSession "b" 1, by simp [fullRegistry], rfl⟩
  · exact ⟨sampleSession "c" 2, by simp [fullRegistry], rfl⟩
  · exact ⟨sampleSession "d" 3, by simp [fullRegistry], rfl⟩
  · exact ⟨sampleSession "e" 4, by simp [fullRegistry], rfl⟩

theorem fullRegistry_WF : fullRegistry.WF := by
  simp [Registry.WF, fullRegistry, sampleSession]

/-- Witness of C1: the registry at capacity; after the teardown of the holder
of offset 2 a new session gets display 102 and port 10002. -/
theorem allocateResources_least_free_witness :
    fullRegistry.WF ∧ sampleSession "c" 2 ∈ fullRegistry ∧
    (∀ k, k < MAX_SESSIONS → ∃ s ∈ fullRegistry, s.displayNum = some (BASE_DISPLAY + k)) ∧
    ∃ st, (sampleSession "c" 2).cleanup fullWorld = .ok st ∧
      (Session.new "f" 7).allocateResources st.2.sessions =
        (true, { Session.new "f" 7 with displayNum := some (BASE_DISPLAY + 2),
                                        port := some (BASE_XPRA_PORT + 2) }) :=
  ⟨fullRegistry_WF, by simp [fullRegistry], fullRegistry_full,
    (allocateResources_least_free fullRegistry (Session.new "f" 7)).2 fullWorld
      (sampleSession "c" 2) 2 rfl fullRegistry_WF (by simp [fullRegistry]) (by decide) rfl
      (by
        intro t ht e
        simp only [fullRegistry, List.mem_cons, List.mem_singleton, List.not_mem_nil,
          or_false] at ht
        rcases ht with h | h | h | h | h <;> subst h <;>
          first
          | rfl
          | (exact absurd e (by simp [sampleSession, BASE_DISPLAY])))
      fullRegistry_full⟩

/-! ## Teardown (C7) -/

/-- C7: `cleanup` never raises; on the registry a second `cleanup` of the
same object changes nothing more; it removes the entry keyed by the id of the
object and nothing else, at the first call and at any later call in any later
state, so that every session of another id (also one that now holds the slot
the object used to hold) stays registered with all its fields. -/
theorem cleanup_idempotent (s : Session) (w : World) :
    ∃ s1 w1, s.cleanup w = .ok (s1, w1) ∧
      (∃ s2 w2, s1.cleanup w1 = .ok (s2, w2) ∧ w2.sessions = w1.sessions) ∧
      w1.sessions = w.sessions.filter (fun t => t.id != s.id) ∧
      (∀ t ∈ w.sessions, t.id ≠ s.id → t ∈ w1.sessions) ∧
      (∀ later : World, ∃ s2 w2, s1.cleanup later = .ok (s2, w2) ∧
        w2.sessions = later.sessions.filter (fun t => t.id != s.id) ∧
        ∀ t ∈ later.sessions, t.id ≠ s.id → t ∈ w2.sessions) := by
  obtain ⟨⟨s1, w1⟩, h1, hid, _, hsess, _, _⟩ := cleanup_eq s w
  refine ⟨s1, w1, h1, ?_, hsess, ?_, ?_⟩
  · obtain ⟨⟨s2, w2⟩, h2, _, _, hsess2, _, _⟩ := cleanup_eq s1 w1
    refine ⟨s2, w2, h2, ?_⟩
    simp only at hsess2 hsess hid
    rw [hsess2, hsess, hid]
    simp [Registry.delete, List.filter_filter]
  · intro t ht hne
    simp only at hsess
    rw [hsess, Registry.mem_delete]
    exact ⟨ht, hne⟩
  · intro later
    obtain ⟨⟨s2, w2⟩, h2, _, _, hsess2, _, _⟩ := cleanup_eq s1 later
    simp only at hsess2 hid
    rw [hid] at hsess2
    refine ⟨s2, w2, h2, hsess2, ?_⟩
    intro t ht hne
    rw [hsess2, Registry.mem_delete]
    exact ⟨ht, hne⟩

/-- Witness of C7: the teardown of the holder of offset 2 in the registry at
capacity keeps the holder of offset 3. -/
theorem cleanup_idempotent_witness :
    sampleSession "d" 3 ∈ fullWorld.sessions ∧
    (sampleSession "d" 3).id ≠ (sampleSession "c" 2).id ∧
    ∃ s1 w1, (sampleSession "c" 2).cleanup fullWorld = .ok (s1, w1) ∧
      sampleSession "d" 3 ∈ w1.sessions := by
  have hmem : sampleSession "d" 3 ∈ fullWorld.sessions := by
    simp [fullWorld, fullRegistry]
  have hne : (sampleSession "d" 3).id ≠ (sampleSession "c" 2).id := by
    simp [sampleSession]
  obtain ⟨s1, w1, h1, _, _, h4, _⟩ := cleanup_idempotent (sampleSession "c" 2) fullWorld
  exact ⟨hmem, hne, s1, w1, h1, h4 _ hmem hne⟩

/-! ## Reaper and heartbeat (C6) -/

theorem reaperLoop_eq (now : Int) :
    ∀ (l : List Session) (w : World), w.sessions.WF → (l.map Session.id).Nodup →
      (∀ s ∈ l, s ∈ w.sessions) →
      ∃ w1, reaperLoop now l w = .ok w1 ∧
        w1.sessions = w.sessions.filter
          (fun t => !(decide (t ∈ l) && decide (now - t.lastActivity > SESSION_TIMEOUT))) := by
  intro l
  induction l with
  | nil =>
    intro w _ _ _
    exact ⟨w, rfl, by simp⟩
  | cons s rest ih =>
    intro w hwf hnd hsub
    have hs : s ∈ w.sessions := hsub s (List.mem_cons_self _ _)
    have hhas : w.sessions.has s.id = true := (Registry.has_iff _ _).mpr ⟨s, hs, rfl⟩
    rw [List.map_cons, List.nodup_cons] at hnd
    by_cases hexp : now - s.lastActivity > SESSION_TIMEOUT
    · obtain ⟨⟨s1, w1⟩, hc, _, _, hsess, _, _⟩ := cleanup_eq s w
      simp only at hsess
      have hsub1 : ∀ r ∈ rest, r ∈ w1.sessions := by
        intro r hr
        rw [hsess, Registry.mem_delete]
        refine ⟨hsub r (List.mem_cons_of_mem _ hr), ?_⟩
        intro e
        exact hnd.1 (by rw [← e]; exact List.mem_map_of_mem _ hr)
      have hwf1 : w1.sessions.WF := by
        rw [hsess]
        exact hwf.of_delete _
      obtain ⟨w2, h2, hs2⟩ := ih w1 hwf1 hnd.2 hsub1
      refine ⟨w2, ?_, ?_⟩
      · simp only [reaperLoop, hhas, hexp, if_true, hc]
        exact h2
      · rw [hs2, hsess, Registry.delete, List.filter_filter]
        apply List.filter_congr
        intro t ht
        by_cases hts : t = s
        · subst hts
          simp [hexp]
        · have hid : t.id ≠ s.id := fun e => hts (hwf.eq_of_id ht hs e)
          simp [hts, hid]
    · obtain ⟨w2, h2, hs2⟩ := ih w hwf hnd.2 (fun r hr => hsub r (List.mem_cons_of_mem _ hr))
      refine ⟨w2, ?_, ?_⟩
      · simp only [reaperLoop, hhas, hexp, if_true, if_false]
        exact h2
      · rw [hs2]
        apply List.filter_congr
        intro t ht
        by_cases hts : t = s
        · subst hts
          simp [hexp]
        · simp [hts]

theorem reaper_eq (now : Int) (w : World) (hwf : w.sessions.WF) :
    ∃ w1, reaper now w = .ok w1 ∧
      w1.sessions = w.sessions.filter
        (fun t => !decide (now - t.lastActivity > SESSION_TIMEOUT)) := by
  obtain ⟨w1, h1, h2⟩ := reaperLoop_eq now w.sessions w hwf hwf (fun s hs => hs)
  refine ⟨w1, h1, ?_⟩
  rw [h2]
  apply List.filter_congr
  intro t ht
  simp [ht]

/-- C6: on a registry with unique keys one pass of the reaper at time `now`
raises nothing and leaves exactly the sessions that do not satisfy
`now - lastActivity > SESSION_TIMEOUT`, each unchanged and in the same order;
and after a heartbeat at time `t` for a registered id, a pass at any time
`now ≤ t + SESSION_TIMEOUT` keeps the session of that id, whose `lastActivity`
is `t`. -/
theorem reaper_removes_exactly_expired (w : World) (now : Int) (sessionId : String)
    (t : Int) (hwf : w.sessions.WF) :
    (∃ w1, reaper now w = .ok w1 ∧
      w1.sessions = w.sessions.filter
        (fun s => !decide (now - s.lastActivity > SESSION_TIMEOUT)) ∧
      (∀ s, s ∈ w1.sessions ↔
        s ∈ w.sessions ∧ ¬ now - s.lastActivity > SESSION_TIMEOUT)) ∧
    (w.sessions.has sessionId = true → now ≤ t + SESSION_TIMEOUT →
      (apiHeartbeat w.sessions sessionId t).1 = true ∧
      ∃ w2, reaper now { w with sessions := (apiHeartbeat w.sessions sessionId t).2 } = .ok w2 ∧
        ∃ s ∈ w2.sessions, s.id = sessionId ∧ s.lastActivity = t) := by
  constructor
  · obtain ⟨w1, h1, h2⟩ := reaper_eq now w hwf
    refine ⟨w1, h1, h2, ?_⟩
    intro s
    rw [h2, List.mem_filter]
    simp
  · intro hhas hle
    obtain ⟨s0, hg⟩ := Registry.get_of_has hhas
    obtain ⟨hmem0, hid0⟩ := Registry.get_some hg
    have hb : apiHeartbeat w.sessions sessionId t =
        (true, w.sessions.store (s0.updateActivity t)) := by
      simp [apiHeartbeat, hg]
    rw [hb]
    refine ⟨rfl, ?_⟩
    have hwf1 : (w.sessions.store (s0.updateActivity t)).WF := hwf.of_store _
    obtain ⟨w2, h1, h2⟩ :=
      reaper_eq now { w with sessions := w.sessions.store (s0.updateActivity t) } hwf1
    refine ⟨w2, h1, s0.updateActivity t, ?_, hid0, rfl⟩
    rw [h2, List.mem_filter]
    refine ⟨Registry.mem_store_self hmem0 rfl, ?_⟩
    have : ¬ now - t > SESSION_TIMEOUT := by omega
    simpa [Session.updateActivity] using this

/-- Witness of C6: in the registry at capacity the session "a" gets a
heartbeat at time 500 and survives the pass at time 600500. -/
theorem reaper_removes_exactly_expired_witness :
    fullWorld.sessions.WF ∧ fullWorld.sessions.has "a" = true ∧
    (600500 : Int) ≤ 500 + SESSION_TIMEOUT ∧
    ∃ w2, reaper 600500
        { fullWorld with sessions := (apiHeartbeat fullWorld.sessions "a" 500).2 } = .ok w2 ∧
      ∃ s ∈ w2.sessions, s.id = "a" ∧ s.lastActivity = 500 :=
  ⟨fullRegistry_WF, by simp [fullWorld, fullRegistry, Registry.has, sampleSession],
    by decide,
    ((reaper_removes_exactly_expired fullWorld 600500 "a" 500 fullRegistry_WF).2
      (by simp [fullWorld, fullRegistry, Registry.has, sampleSession]) (by decide)).2⟩

/-! ## Stream router (C3) -/

theorem matchSessionUrl_iff (url id : String) :
    matchSessionUrl url = some id ↔
      id.data ≠ [] ∧ (∀ c ∈ id.data, isIdChar c = true) ∧
      ∃ rest, url.data = "/session/".data ++ (id.data ++ ("/stream/".data ++ rest)) := by
  unfold matchSessionUrl
  constructor
  · intro h
    split at h
    · rename_i hp
      rw [List.isPrefixOf_iff_prefix] at hp
      dsimp only at h
      split at h
      · rename_i hc
        rw [Bool.and_eq_true, List.isPrefixOf_iff_prefix] at hc
        injection h with h
        subst h
        obtain ⟨r1, hr1⟩ := hp
        obtain ⟨r2, hr2⟩ := hc.2
        refine ⟨?_, fun c hc => List.mem_takeWhile_imp hc, r2, ?_⟩
        · intro e
          have e1 : List.takeWhile isIdChar
              (List.drop "/session/".data.length url.data) = [] := e
          have h1 := hc.1
          rw [e1] at h1
          exact absurd h1 (by decide)
        · show url.data = _ ++ (List.takeWhile isIdChar _ ++ _)
          rw [hr2, List.takeWhile_append_dropWhile, ← hr1, List.drop_left]
      · exact absurd h (by simp)
    · exact absurd h (by simp)
  · rintro ⟨hne, hall, rest, hu⟩
    have hp : "/session/".data.isPrefixOf url.data = true := by
      rw [List.isPrefixOf_iff_prefix, hu]
      exact List.prefix_append _ _
    have hd : url.data.drop "/session/".data.length = id.data ++ ("/stream/".data ++ rest) := by
      rw [hu, List.drop_left]
    have hslash : ("/stream/".data ++ rest) = '/' :: ("stream/".data ++ rest) := rfl
    have hnot : ¬ isIdChar '/' = true := by decide
    have ht : (id.data ++ ("/stream/".data ++ rest)).takeWhile isIdChar = id.data := by
      rw [List.takeWhile_append_of_pos hall, hslash, List.takeWhile_cons_of_neg hnot,
        List.append_nil]
    have hdw : (id.data ++ ("/stream/".data ++ rest)).dropWhile isIdChar =
        "/stream/".data ++ rest := by
      rw [List.dropWhile_append_of_pos hall, hslash, List.dropWhile_cons_of_neg hnot]
    rw [if_pos hp]
    simp only [hd, ht, hdw]
    have hc : (!id.data.isEmpty && "/stream/".data.isPrefixOf ("/stream/".data ++ rest)) = true := by
      rw [Bool.and_eq_true, List.isPrefixOf_iff_prefix]
      refine ⟨?_, List.prefix_append _ _⟩
      cases hi : id.data with
      | nil => exact absurd hi hne
      | cons a l => rfl
    rw [if_pos hc]

theorem target_of_port (port : Option Nat) (target : String) :
    target = "http://127.0.0.1:" ++ portString port ↔
      ((∃ p, port = some p ∧ target = "http://127.0.0.1:" ++ toString p) ∨
       (port = none ∧ target = "http://127.0.0.1:null")) := by
  cases port with
  | none =>
    have e : "http://127.0.0.1:" ++ portString none = "http://127.0.0.1:null" := by decide
    rw [e]
    simp
  | some p => simp [portString]

/-- C3: the router returns a target exactly when the url starts with
`/session/<id>/stream/` (`<id>` a non-empty run of letters, digits and
hyphens), `<id>` is registered and the session of that id has
`streamReady = true`; the target is then `http://127.0.0.1:` followed by the
decimal digits of the port of that session (by `null` if that port is null).
In every other case (no match, id absent from the registry,
`streamReady = false`) it returns `null`. -/
theorem router_target_iff (sessions : Registry) (url : String) :
    (∀ target, router sessions url = some target ↔
      ∃ id s, matchSessionUrl url = some id ∧ sessions.get id = some s ∧
        s.streamReady = true ∧
        ((∃ p, s.port = some p ∧ target = "http://127.0.0.1:" ++ toString p) ∨
         (s.port = none ∧ target = "http://127.0.0.1:null"))) ∧
    (router sessions url = none ↔
      matchSessionUrl url = none ∨
      ∃ id, matchSessionUrl url = some id ∧
        (sessions.get id = none ∨ ∃ s, sessions.get id = some s ∧ s.streamReady = false)) ∧
    (∀ id, matchSessionUrl url = some id ↔
      id.data ≠ [] ∧ (∀ c ∈ id.data, isIdChar c = true) ∧
      ∃ rest, url.data = "/session/".data ++ (id.data ++ ("/stream/".data ++ rest))) := by
  refine ⟨?_, ?_, fun id => matchSessionUrl_iff url id⟩
  · intro target
    unfold router
    cases hm : matchSessionUrl url with
    | none => simp
    | some id =>
      cases hg : sessions.get id with
      | none => simp [hg]
      | some s =>
        cases hr : s.streamReady with
        | false => simp [hg, hr]
        | true =>
          simp only [hg, hr, if_true, Option.some.injEq]
          constructor
          · intro h
            exact ⟨id, s, rfl, hg, hr, (target_of_port s.port target).mp h.symm⟩
          · rintro ⟨id1, s1, h1, h2, _, h4⟩
            subst h1
            rw [hg] at h2
            injection h2 with h2
            subst h2
            exact ((target_of_port s.port target).mpr h4).symm
  · unfold router
    cases hm : matchSessionUrl url with
    | none => simp
    | some id =>
      cases hg : sessions.get id with
      | none => simp [hg]
      | some s =>
        cases hr : s.streamReady with
        | false => simp [hg, hr]
        | true => simp [hg, hr]

/-- Witness of C3: in the registry at capacity the stream url of session "a"
is routed to port 10000 and the stream url of session "b" to port 10001. -/
theorem router_target_iff_witness :
    router fullRegistry "/session/a/stream/index.html" = some "http://127.0.0.1:10000" ∧
    router fullRegistry "/session/b/stream/" = some "http://127.0.0.1:10001" :=
  ⟨((router_target_iff fullRegistry "/session/a/stream/index.html").1
        "http://127.0.0.1:10000").mpr
      ⟨"a", sampleSession "a" 0, by decide, by decide, rfl,
        Or.inl ⟨10000, rfl, by decide⟩⟩,
    ((router_target_iff fullRegistry "/session/b/stream/").1
        "http://127.0.0.1:10001").mpr
      ⟨"b", sampleSession "b" 1, by decide, by decide, rfl,
        Or.inl ⟨10001, rfl, by decide⟩⟩⟩

/-! ## Readiness protocol (C4) -/

/-- C4, evaluated on two launches.  When the display process exits before any
ready chunk and the 15 s timer fires afterwards, `reject` is called twice;
when the timer fires first and a chunk with the ready marker arrives later,
`reject` is followed by `resolve` and the session is flagged `streamReady`. -/
theorem startXpra_settles_twice :
    (∃ st, startupRun startingState [.exit (some 1), .timer] = .ok st ∧
      st.1.calls = [Settle.reject "Xpra crashed during startup",
                    Settle.reject "Xpra startup timeout after 15s"]) ∧
    (∃ st, startupRun startingState [.timer, .data "xpra is ready"] = .ok st ∧
      st.1.calls = [Settle.reject "Xpra startup timeout after 15s", Settle.resolve] ∧
      st.2.1.streamReady = true) :=
  ⟨⟨_, rfl, rfl⟩, ⟨_, rfl, rfl, rfl⟩⟩

/-! ## Session initiation at capacity (C8) -/

theorem allocateResources_full (sessions : Registry) (self : Session)
    (h : ∀ k, k < MAX_SESSIONS → ∃ s ∈ sessions, s.displayNum = some (BASE_DISPLAY + k)) :
    self.allocateResources sessions = (false, self) := by
  rcases allocateResources_cases sessions self with ⟨k, h1, h2, _, _⟩ | ⟨_, h2⟩
  · obtain ⟨s, hs, e⟩ := h k h1
    rw [isUsed_false_iff] at h2
    exact absurd e (h2 s hs)
  · exact h2

/-- C8, evaluated on the registry at capacity: the initiation of a sixth
session answers 503 with the capacity message and leaves the new session in
the registry, with `displayNum` and `port` null. -/
theorem apiInit_at_capacity_keeps_entry :
    apiInit fullRegistry "f" 9 =
      (.error "Server at maximum capacity. Try again later.",
       fullRegistry ++ [Session.new "f" 9]) ∧
    Registry.get (apiInit fullRegistry "f" 9).2 "f" = some (Session.new "f" 9) ∧
    (Session.new "f" 9).displayNum = none ∧ (Session.new "f" 9).port = none := by
  have hset : Registry.set fullRegistry (Session.new "f" 9) =
      fullRegistry ++ [Session.new "f" 9] := by decide
  have hfull : ∀ k, k < MAX_SESSIONS →
      ∃ s ∈ fullRegistry ++ [Session.new "f" 9], s.displayNum = some (BASE_DISPLAY + k) := by
    intro k hk
    obtain ⟨s, hs, e⟩ := fullRegistry_full k hk
    exact ⟨s, List.mem_append_left _ hs, e⟩
  have h : apiInit fullRegistry "f" 9 =
      (.error "Server at maximum capacity. Try again later.",
       fullRegistry ++ [Session.new "f" 9]) := by
    simp only [apiInit, hset, Session.start, allocateResources_full _ _ hfull]
    rfl
  refine ⟨h, ?_, rfl, rfl⟩
  rw [h]
  decide

/-! ## Compile failures (C9, C10) -/

theorem killPrevious_spec (self : Session) (w : World) :
    (killPrevious self w).1 = { self with wineProcess := none } ∧
    (killPrevious self w).2.1.sessions = w.sessions ∧
    (killPrevious self w).2.1.nextPid = w.nextPid ∧
    (∀ p ∈ (killPrevious self w).2.1.alive, p ∈ w.alive) ∧
    (∀ p ∈ (killPrevious self w).2.1.alive, self.wineProcess ≠ some p) ∧
    (∀ p ∈ w.alive, self.wineProcess ≠ some p → p ∈ (killPrevious self w).2.1.alive) := by
  rcases self with ⟨id, d, pt, x, wp, la, sr⟩
  cases wp with
  | none =>
    refine ⟨rfl, rfl, rfl, fun p hp => hp, fun p _ => by simp, fun p hp _ => hp⟩
  | some pid =>
    by_cases hm : pid ∈ w.alive
    · have e : killPrevious ⟨id, d, pt, x, some pid, la, sr⟩ w =
          (⟨id, d, pt, x, none, la, sr⟩,
           { w with alive := w.alive.filter (fun p => p != pid) },
           [⟨"INFO", "Killed previous Wine process", utf16 ""⟩]) := by
        simp [killPrevious, processKill, hm]
      rw [e]
      refine ⟨rfl, rfl, rfl, fun p hp => (List.mem_filter.mp hp).1, ?_, ?_⟩
      · intro p hp e1
        have := (List.mem_filter.mp hp).2
        simp only [Option.some.injEq] at e1
        simp [e1] at this
      · intro p hp hne
        refine List.mem_filter.mpr ⟨hp, ?_⟩
        have : p ≠ pid := fun e1 => hne (by rw [e1])
        simpa using this
    · have e : killPrevious ⟨id, d, pt, x, some pid, la, sr⟩ w =
          (⟨id, d, pt, x, none, la, sr⟩, w,
           [⟨"DEBUG", "Previous Wine process already terminated", utf16 ""⟩]) := by
        simp [killPrevious, processKill, hm]
      rw [e]
      refine ⟨rfl, rfl, rfl, fun p hp => hp, ?_, fun p hp _ => hp⟩
      intro p hp e1
      simp only [Option.some.injEq] at e1
      exact hm (by rw [e1]; exact hp)

theorem runCode_compile_fail (self : Session) (w : World) (code : String) (env : RunEnv)
    (hw : env.writeError = none) (hc : env.compileErr = true) :
    self.runCode w code env =
      { result := .failure (errorMsg env),
        self := (killPrevious (self.updateActivity env.now) w).1,
        world := (killPrevious (self.updateActivity env.now) w).2.1,
        logs := [⟨"INFO", "Compilation started",
                  utf16 ("Source: " ++ toString (utf16 code).length ++ " chars")⟩] ++
          (killPrevious (self.updateActivity env.now) w).2.2 ++
          [⟨"ERROR", "Compilation failed", substring0 (errorMsg env) 100⟩] ++
          [⟨"ERROR", "Execution failed", substring0 (errorMsg env) 200⟩] } := by
  simp [Session.runCode, runBody, hw, hc]

theorem substring0_length (s : String) (n : Nat) : (substring0 s n).length ≤ n := by
  unfold substring0
  rw [List.length_take]
  exact Nat.min_le_left _ _

theorem Registry.get_store {m : Registry} {id : String} {s s1 : Session}
    (h : m.get id = some s) (e : s1.id = id) : (m.store s1).get id = some s1 := by
  unfold Registry.get Registry.store at *
  induction m with
  | nil => simp at h
  | cons t rest ih =>
    rw [List.find?_cons] at h
    by_cases c : t.id = id
    · simp [c, e]
    · have c1 : (t.id == id) = false := by simpa using c
      rw [c1] at h
      have c2 : ¬ t.id = s1.id := by rw [e]; exact c
      have c3 : (t.id == s1.id) = false := by simpa using c2
      simp only [List.map_cons, c3, Bool.false_eq_true, if_false, List.find?_cons, c1]
      exact ih h

theorem substring0_surrogate_pairs :
    utf16Char (Char.ofNat 0x1F600) = [0xD83D, 0xDE00] ∧
    (utf16 ⟨List.replicate 60 (Char.ofNat 0x1F600)⟩).length = 120 ∧
    substring0 ⟨List.replicate 60 (Char.ofNat 0x1F600)⟩ 100 =
      (List.replicate 50 [0xD83D, 0xDE00]).flatten := by
  decide

/-- C9: on a compile failure the `output` that `runCode` returns has at most
`EXEC_MAX_BUFFER` = 1048576 code units, whatever the compiler wrote: it is one
of the two texts `exec` hands over, each capped by the buffer of `exec`, or the
fixed text of 18 units. -/
theorem runCode_output_bounded (self : Session) (w : World) (code : String)
    (env : RunEnv) (hw : env.writeError = none) (hc : env.compileErr = true)
    (hx : ExecDelivered env) :
    ∃ output, (self.runCode w code env).result = .failure output ∧
      (utf16 output).length ≤ EXEC_MAX_BUFFER ∧ EXEC_MAX_BUFFER = 1048576 := by
  rw [runCode_compile_fail self w code env hw hc]
  refine ⟨errorMsg env, rfl, ?_, rfl⟩
  unfold errorMsg
  split
  · exact hx.2
  · split
    · exact hx.1
    · decide

/-- Witness of C9: a compile failure whose stderr is `boom`. -/
theorem runCode_output_bounded_witness :
    (failingCompile "boom").writeError = none ∧ (failingCompile "boom").compileErr = true ∧
    ExecDelivered (failingCompile "boom") ∧
    ∃ output,
      ((Session.new "s" 0).runCode World.empty "x" (failingCompile "boom")).result =
        .failure output ∧
      (utf16 output).length ≤ EXEC_MAX_BUFFER ∧ EXEC_MAX_BUFFER = 1048576 :=
  ⟨rfl, rfl, ⟨by decide, by decide⟩,
    runCode_output_bounded (Session.new "s" 0) World.empty "x" (failingCompile "boom")
      rfl rfl ⟨by decide, by decide⟩⟩

/-- C10: for a registered session with `streamReady = true` and a source whose
compilation fails, the run handler answers with the result of `runCode`, which
is a failure whose `output` is the diagnostic (stderr if non-empty, otherwise
stdout if non-empty, otherwise the fixed text); no process is spawned; the
session stays registered under its id with `wineProcess` null and with
`streamReady`, `displayNum` and `port` unchanged. -/
theorem runCode_compile_failure_keeps_session (w : World) (sessionId code : String)
    (env : RunEnv) (session : Session)
    (hreg : w.sessions.get sessionId = some session) (hready : session.streamReady = true)
    (hw : env.writeError = none) (hc : env.compileErr = true) :
    (session.runCode w code env).result =
      .failure (if env.stderr ≠ "" then env.stderr
                else if env.stdout ≠ "" then env.stdout else "Compilation failed") ∧
    (apiRun w sessionId code env).1 = .ran (session.runCode w code env).result ∧
    (apiRun w sessionId code env).2.nextPid = w.nextPid ∧
    (∀ p ∈ (apiRun w sessionId code env).2.alive, p ∈ w.alive) ∧
    (session.runCode w code env).self.wineProcess = none ∧
    ∃ s1, (apiRun w sessionId code env).2.sessions.get sessionId = some s1 ∧
      s1 = (session.runCode w code env).self ∧
      s1.wineProcess = none ∧ s1.streamReady = true ∧
      s1.displayNum = session.displayNum ∧ s1.port = session.port := by
  have hk := killPrevious_spec (session.updateActivity env.now) w
  obtain ⟨hk1, hk2, hk3, hk4, _, _⟩ := hk
  have hid : session.id = sessionId := (Registry.get_some hreg).2
  have hrun : apiRun w sessionId code env =
      (.ran (session.runCode w code env).result,
       { (session.runCode w code env).world with
         sessions := (session.runCode w code env).world.sessions.store
           (session.runCode w code env).self }) := by
    simp [apiRun, hreg]
  rw [hrun, runCode_compile_fail session w code env hw hc]
  refine ⟨rfl, rfl, hk3, hk4, by rw [hk1], ?_⟩
  refine ⟨_, ?_, rfl, by rw [hk1], ?_, by rw [hk1]; rfl, by rw [hk1]; rfl⟩
  · show Registry.get (Registry.store _ _) sessionId = _
    rw [hk2]
    exact Registry.get_store hreg (by rw [hk1]; exact hid)
  · rw [hk1]
    exact hready

/-- Witness of C10: the session "a" of the registry at capacity submits a
source whose compilation fails with stderr `boom`. -/
theorem runCode_compile_failure_keeps_session_witness :
    fullWorld.sessions.get "a" = some (sampleSession "a" 0) ∧
    (sampleSession "a" 0).streamReady = true ∧
    (failingCompile "boom").writeError = none ∧ (failingCompile "boom").compileErr = true ∧
    (apiRun fullWorld "a" "x" (failingCompile "boom")).1 =
      .ran ((sampleSession "a" 0).runCode fullWorld "x" (failingCompile "boom")).result :=
  ⟨by decide, rfl, rfl, rfl,
    (runCode_compile_failure_keeps_session fullWorld "a" "x" (failingCompile "boom")
      (sampleSession "a" 0) (by decide) rfl rfl rfl).2.1⟩

/-! ## One runtime process per session (C5) -/

theorem runCode_cases (self : Session) (w : World) (code : String) (env : RunEnv) :
    (env.writeError = none ∧ env.compileErr = false ∧ env.prepareError = none ∧
      (self.runCode w code env).result =
        .success (killPrevious (self.updateActivity env.now) w).2.1.nextPid ∧
      (self.runCode w code env).self =
        { (killPrevious (self.updateActivity env.now) w).1 with
          wineProcess := some (killPrevious (self.updateActivity env.now) w).2.1.nextPid } ∧
      (self.runCode w code env).world =
        { (killPrevious (self.updateActivity env.now) w).2.1 with
          alive := (killPrevious (self.updateActivity env.now) w).2.1.nextPid ::
            (killPrevious (self.updateActivity env.now) w).2.1.alive,
          nextPid := (killPrevious (self.updateActivity env.now) w).2.1.nextPid + 1 }) ∨
    (¬ (env.writeError = none ∧ env.compileErr = false ∧ env.prepareError = none) ∧
      (∃ output, (self.runCode w code env).result = .failure output) ∧
      (self.runCode w code env).self = (killPrevious (self.updateActivity env.now) w).1 ∧
      (self.runCode w code env).world = (killPrevious (self.updateActivity env.now) w).2.1) := by
  cases hw : env.writeError with
  | some e =>
    right
    simp [Session.runCode, runBody, hw]
  | none =>
    cases hc : env.compileErr with
    | true =>
      right
      simp [Session.runCode, runBody, hw, hc]
    | false =>
      cases hp : env.prepareError with
      | some e =>
        right
        simp [Session.runCode, runBody, hw, hc, hp]
      | none =>
        left
        simp [Session.runCode, runBody, hw, hc, hp]

theorem spawnedSince_filter (n0 : Nat) (w : World) (f : Nat → Bool) :
    spawnedSince n0 { w with alive := w.alive.filter f } = (spawnedSince n0 w).filter f := by
  simp only [spawnedSince, List.filter_filter]
  apply List.filter_congr
  intro x _
  exact Bool.and_comm _ _

theorem filter_singleton (f : Nat → Bool) (p : Nat) :
    List.filter f [p] = if f p = true then [p] else [] := by
  cases h : f p <;> simp [List.filter, h]

theorem RuntimeInv.step {n0 : Nat} {st : RuntimeState} (h : RuntimeInv n0 st)
    (e : RuntimeEvent) : RuntimeInv n0 (runtimeStep st e) := by
  obtain ⟨h1, h2, h3, h4⟩ := h
  cases e with
  | exited pid =>
    refine ⟨h1, ?_, ?_, ?_⟩
    · intro p hp
      exact h2 p (List.mem_filter.mp hp).1
    · rcases h3 with h3 | ⟨p, h3, h5⟩
      · left
        show spawnedSince n0 { st.world with alive := _ } = []
        rw [spawnedSince_filter, h3]
        rfl
      · by_cases c : (p != pid) = true
        · right
          refine ⟨p, ?_, h5⟩
          show spawnedSince n0 { st.world with alive := _ } = [p]
          rw [spawnedSince_filter, h3, filter_singleton, if_pos c]
        · left
          show spawnedSince n0 { st.world with alive := _ } = []
          rw [spawnedSince_filter, h3, filter_singleton, if_neg c]
    · intro env r hl
      obtain ⟨a, b, c⟩ := h4 env r hl
      refine ⟨a, ?_, c⟩
      intro output ho
      show spawnedSince n0 { st.world with alive := _ } = []
      rw [spawnedSince_filter, b output ho]
      rfl
  | run code env =>
    obtain ⟨k1, _, k3, k4, k5, _⟩ := killPrevious_spec (st.self.updateActivity env.now) st.world
    have hnone : spawnedSince n0 (killPrevious (st.self.updateActivity env.now) st.world).2.1
        = [] := by
      rw [List.eq_nil_iff_forall_not_mem]
      intro q hq
      have hq1 := List.mem_filter.mp hq
      have hq2 : q ∈ spawnedSince n0 st.world :=
        List.mem_filter.mpr ⟨k4 q hq1.1, hq1.2⟩
      rcases h3 with h3 | ⟨p, h3, h5⟩
      · rw [h3] at hq2
        exact absurd hq2 (List.not_mem_nil _)
      · rw [h3, List.mem_singleton] at hq2
        subst hq2
        exact k5 q hq1.1 h5
    have halive : ∀ p ∈ (killPrevious (st.self.updateActivity env.now) st.world).2.1.alive,
        p < st.world.nextPid := fun p hp => h2 p (k4 p hp)
    rcases runCode_cases st.self st.world code env with
      ⟨c1, c2, c3, c4, c5, c6⟩ | ⟨c1, ⟨output, c2⟩, c3, c4⟩
    · rw [k3] at c4 c5 c6
      have hsp : spawnedSince n0 (st.self.runCode st.world code env).world
          = [st.world.nextPid] := by
        rw [c6]
        have hd : decide (n0 ≤ st.world.nextPid) = true := by simpa using h1
        have hn := hnone
        unfold spawnedSince at hn ⊢
        show List.filter _ (st.world.nextPid :: _) = _
        rw [List.filter_cons_of_pos (by simpa using h1), hn]
      refine ⟨?_, ?_, ?_, ?_⟩
      · show n0 ≤ (st.self.runCode st.world code env).world.nextPid
        rw [c6]
        exact Nat.le_succ_of_le h1
      · show ∀ p ∈ (st.self.runCode st.world code env).world.alive,
          p < (st.self.runCode st.world code env).world.nextPid
        rw [c6]
        intro p hp
        rcases List.mem_cons.mp hp with e | hp
        · rw [e]
          exact Nat.lt_succ_self _
        · exact Nat.lt_succ_of_lt (halive p hp)
      · right
        refine ⟨st.world.nextPid, hsp, ?_⟩
        show (st.self.runCode st.world code env).self.wineProcess = _
        rw [c5]
      · intro env1 r hl
        have hl1 : (env, (st.self.runCode st.world code env).result) = (env1, r) :=
          Option.some.inj hl
        have hr : r = .success st.world.nextPid := by
          rw [← (Prod.mk.inj hl1).2, c4]
        refine ⟨?_, ?_, fun _ _ _ => ⟨_, hr⟩⟩
        · intro p hp
          rw [hr] at hp
          injection hp with hp
          rw [← hp]
          refine ⟨?_, h1⟩
          show (st.self.runCode st.world code env).self.wineProcess = _
          rw [c5]
        · intro output ho
          rw [hr] at ho
          exact absurd ho (by simp)
    · have hsp : spawnedSince n0 (st.self.runCode st.world code env).world = [] := by
        rw [c4]
        exact hnone
      refine ⟨?_, ?_, Or.inl hsp, ?_⟩
      · show n0 ≤ (st.self.runCode st.world code env).world.nextPid
        rw [c4, k3]
        exact h1
      · show ∀ p ∈ (st.self.runCode st.world code env).world.alive,
          p < (st.self.runCode st.world code env).world.nextPid
        rw [c4, k3]
        exact halive
      · intro env1 r hl
        have hl1 : (env, (st.self.runCode st.world code env).result) = (env1, r) :=
          Option.some.inj hl
        have hr : r = .failure output := by
          rw [← (Prod.mk.inj hl1).2, c2]
        have he : env1 = env := (Prod.mk.inj hl1).1.symm
        refine ⟨?_, fun _ _ => hsp, ?_⟩
        · intro p hp
          rw [hr] at hp
          exact absurd hp (by simp)
        · intro a b c
          rw [he] at a b c
          exact absurd ⟨a, b, c⟩ c1

theorem RuntimeInv.run {n0 : Nat} (events : List RuntimeEvent) :
    ∀ st : RuntimeState, RuntimeInv n0 st → RuntimeInv n0 (runtimeRun st events) := by
  induction events with
  | nil => exact fun st h => h
  | cons e rest ih => exact fun st h => ih _ (h.step e)

theorem RuntimeInv.init (s0 : Session) (w0 : World)
    (hfresh : ∀ p ∈ w0.alive, p < w0.nextPid) :
    RuntimeInv w0.nextPid ⟨s0, w0, none⟩ := by
  refine ⟨le_refl _, hfresh, Or.inl ?_, ?_⟩
  · rw [List.eq_nil_iff_forall_not_mem]
    intro q hq
    have hq1 := List.mem_filter.mp hq
    have h1 : w0.nextPid ≤ q := by simpa using hq1.2
    exact absurd (hfresh q hq1.1) (by omega)
  · intro env r hl
    exact absurd hl (by simp)

theorem RuntimeInv.run_success {n0 : Nat} {st : RuntimeState} (h : RuntimeInv n0 st)
    (code : String) (env : RunEnv) (hw : env.writeError = none)
    (hc : env.compileErr = false) (hp : env.prepareError = none) :
    spawnedSince n0 (runtimeStep st (.run code env)).world = [st.world.nextPid] ∧
    (runtimeStep st (.run code env)).self.wineProcess = some st.world.nextPid ∧
    (runtimeStep st (.run code env)).last = some (env, .success st.world.nextPid) := by
  obtain ⟨_, _, k3, _, _, _⟩ := killPrevious_spec (st.self.updateActivity env.now) st.world
  have hinv := h.step (.run code env)
  rcases runCode_cases st.self st.world code env with
    ⟨_, _, _, c4, c5, c6⟩ | ⟨c1, _, _, _⟩
  · rw [k3] at c4 c5 c6
    have hself : (runtimeStep st (.run code env)).self.wineProcess = some st.world.nextPid := by
      show (st.self.runCode st.world code env).self.wineProcess = _
      rw [c5]
    have hmem : st.world.nextPid ∈ spawnedSince n0 (runtimeStep st (.run code env)).world := by
      show st.world.nextPid ∈ spawnedSince n0 (st.self.runCode st.world code env).world
      rw [c6]
      refine List.mem_filter.mpr ⟨List.mem_cons_self _ _, ?_⟩
      simpa using h.1
    refine ⟨?_, hself, ?_⟩
    · rcases hinv.2.2.1 with e | ⟨p, e, e1⟩
      · rw [e] at hmem
        exact absurd hmem (List.not_mem_nil _)
      · rw [hself] at e1
        injection e1 with e1
        rw [e, e1]
    · show some (env, (st.self.runCode st.world code env).result) = _
      rw [c4]
  · exact absurd ⟨hw, hc, hp⟩ c1

/-- C5: take any session object and any state in which the live processes
were numbered before the process counter, and any trace of `runCode`
invocations on the object, each run to completion, mixed with exits of
processes.  After the trace at most one process spawned during it is alive;
every such process is the one the latest invocation spawned and returned, and
`wineProcess` is its handle; an invocation that compiles and launches returns
the process it spawned, which is then the one live process of the trace. -/
theorem runCode_single_runtime_process (s0 : Session) (w0 : World)
    (events : List RuntimeEvent) (hfresh : ∀ p ∈ w0.alive, p < w0.nextPid) :
    (spawnedSince w0.nextPid (runtimeRun ⟨s0, w0, none⟩ events).world).length ≤ 1 ∧
    (∀ p ∈ spawnedSince w0.nextPid (runtimeRun ⟨s0, w0, none⟩ events).world,
      (runtimeRun ⟨s0, w0, none⟩ events).self.wineProcess = some p) ∧
    (∀ env r, (runtimeRun ⟨s0, w0, none⟩ events).last = some (env, r) →
      (∀ p ∈ spawnedSince w0.nextPid (runtimeRun ⟨s0, w0, none⟩ events).world,
        r = .success p) ∧
      (∀ p, r = .success p →
        (runtimeRun ⟨s0, w0, none⟩ events).self.wineProcess = some p ∧ w0.nextPid ≤ p) ∧
      (env.writeError = none → env.compileErr = false → env.prepareError = none →
        ∃ p, r = .success p)) ∧
    (∀ code env, env.writeError = none → env.compileErr = false → env.prepareError = none →
      spawnedSince w0.nextPid (runtimeRun ⟨s0, w0, none⟩ (events ++ [.run code env])).world =
        [(runtimeRun ⟨s0, w0, none⟩ events).world.nextPid] ∧
      (runtimeRun ⟨s0, w0, none⟩ (events ++ [.run code env])).self.wineProcess =
        some (runtimeRun ⟨s0, w0, none⟩ events).world.nextPid ∧
      (runtimeRun ⟨s0, w0, none⟩ (events ++ [.run code env])).last =
        some (env, .success (runtimeRun ⟨s0, w0, none⟩ events).world.nextPid)) := by
  have hinv : RuntimeInv w0.nextPid (runtimeRun ⟨s0, w0, none⟩ events) :=
    RuntimeInv.run events _ (RuntimeInv.init s0 w0 hfresh)
  have hone : ∀ p ∈ spawnedSince w0.nextPid (runtimeRun ⟨s0, w0, none⟩ events).world,
      (runtimeRun ⟨s0, w0, none⟩ events).self.wineProcess = some p := by
    intro p hp
    rcases hinv.2.2.1 with e | ⟨q, e, e1⟩
    · rw [e] at hp
      exact absurd hp (List.not_mem_nil _)
    · rw [e, List.mem_singleton] at hp
      rw [hp]
      exact e1
  refine ⟨?_, hone, ?_, ?_⟩
  · rcases hinv.2.2.1 with e | ⟨q, e, _⟩
    · rw [e]
      exact Nat.zero_le _
    · rw [e]
      exact le_refl _
  · intro env r hl
    obtain ⟨a, b, c⟩ := hinv.2.2.2 env r hl
    refine ⟨?_, a, c⟩
    intro p hp
    cases r with
    | success q =>
      have h1 := (a q rfl).1
      rw [hone p hp] at h1
      injection h1 with h1
      rw [h1]
    | failure output =>
      rw [b output rfl] at hp
      exact absurd hp (List.not_mem_nil _)
  · intro code env hw hc hp
    have e : runtimeRun ⟨s0, w0, none⟩ (events ++ [.run code env]) =
        runtimeStep (runtimeRun ⟨s0, w0, none⟩ events) (.run code env) := by
      simp [runtimeRun, List.foldl_append]
    rw [e]
    exact hinv.run_success code env hw hc hp

/-- Witness of C5: on the registry at capacity, whose five display processes
are alive, the session "a" runs two programs in a row and the first one exits
late. -/
theorem runCode_single_runtime_process_witness :
    (∀ p ∈ fullWorld.alive, p < fullWorld.nextPid) ∧
    (spawnedSince fullWorld.nextPid
      (runtimeRun ⟨sampleSession "a" 0, fullWorld, none⟩ sampleTrace).world).length ≤ 1 :=
  ⟨by decide,
    (runCode_single_runtime_process (sampleSession "a" 0) fullWorld sampleTrace
      (by decide)).1⟩

/-! ## Slot invariant of the registry (C2) -/

theorem SlotInv.wf {m : Registry} (h : SlotInv m) : m.WF := by
  unfold Registry.WF List.Nodup
  rw [List.pairwise_map]
  exact h.2.imp (fun hab => hab.1)

theorem SlotInv.sublist {m m1 : Registry} (h : SlotInv m) (hs : m1.Sublist m) :
    SlotInv m1 :=
  ⟨fun s hs1 => h.1 s (hs.subset hs1), h.2.sublist hs⟩

theorem SlotInv.delete {m : Registry} (h : SlotInv m) (id : String) :
    SlotInv (m.delete id) :=
  h.sublist (List.filter_sublist m)

theorem SlotInv.map {m : Registry} (h : SlotInv m) (f : Session → Session)
    (hv : ∀ s ∈ m, HoldsValidSlot (f s))
    (ha : ∀ s ∈ m, ∀ t ∈ m, Apart s t → Apart (f s) (f t)) : SlotInv (m.map f) := by
  refine ⟨?_, ?_⟩
  · intro s hs
    obtain ⟨t, ht, e⟩ := List.mem_map.mp hs
    rw [← e]
    exact hv t ht
  · rw [List.pairwise_map]
    exact (List.Pairwise.and_mem.mp h.2).imp (fun hab => ha _ hab.1 _ hab.2.1 hab.2.2)

theorem SlotInv.store {m : Registry} (h : SlotInv m) {s0 s1 : Session} (h0 : s0 ∈ m)
    (hid : s1.id = s0.id) (hd : s1.displayNum = s0.displayNum) (hp : s1.port = s0.port) :
    SlotInv (m.store s1) := by
  have hsame : ∀ t ∈ m, t.id = s1.id → t = s0 :=
    fun t ht e => h.wf.eq_of_id ht h0 (by rw [e, hid])
  have hf : ∀ t ∈ m, (if (t.id == s1.id) = true then s1 else t).id = t.id ∧
      (if (t.id == s1.id) = true then s1 else t).displayNum = t.displayNum ∧
      (if (t.id == s1.id) = true then s1 else t).port = t.port := by
    intro t ht
    by_cases c : t.id = s1.id
    · have e := hsame t ht c
      have c1 : (t.id == s1.id) = true := by simpa using c
      rw [if_pos c1, e]
      exact ⟨hid, hd, hp⟩
    · have c1 : (t.id == s1.id) = false := by simpa using c
      simp [c1]
  unfold Registry.store
  apply h.map
  · intro t ht
    obtain ⟨_, e2, e3⟩ := hf t ht
    have hv := h.1 t ht
    unfold HoldsValidSlot at hv ⊢
    rw [e2, e3]
    exact hv
  · intro s hs t ht hab
    obtain ⟨a1, a2, _⟩ := hf s hs
    obtain ⟨b1, b2, _⟩ := hf t ht
    unfold Apart at hab ⊢
    rw [a1, a2, b1, b2]
    exact hab

theorem Registry.mem_set_self (m : Registry) (s : Session) : s ∈ m.set s := by
  unfold Registry.set
  by_cases c : m.has s.id = true
  · rw [if_pos c]
    obtain ⟨t, ht, e⟩ := (Registry.has_iff _ _).mp c
    exact List.mem_map.mpr ⟨t, ht, by simp [e]⟩
  · rw [if_neg c]
    simp

theorem SlotInv.set_new {m : Registry} (h : SlotInv m) (id : String) (now : Int) :
    SlotInv (m.set (Session.new id now)) := by
  unfold Registry.set
  by_cases c : m.has (Session.new id now).id = true
  · rw [if_pos c]
    have hf : ∀ t : Session,
        (if (t.id == (Session.new id now).id) = true then Session.new id now else t).id
          = t.id ∧
        ((if (t.id == (Session.new id now).id) = true then Session.new id now else t) = t ∨
         (if (t.id == (Session.new id now).id) = true then Session.new id now else t)
           = Session.new id now) := by
      intro t
      by_cases c1 : t.id = (Session.new id now).id
      · have c2 : (t.id == (Session.new id now).id) = true := by simpa using c1
        rw [if_pos c2]
        exact ⟨c1.symm, Or.inr rfl⟩
      · have c2 : (t.id == (Session.new id now).id) = false := by simpa using c1
        simp [c2]
    apply h.map
    · intro t ht
      rcases (hf t).2 with e | e
      · rw [e]
        exact h.1 t ht
      · rw [e]
        exact Or.inl ⟨rfl, rfl⟩
    · intro s _ t _ hab
      refine ⟨by rw [(hf s).1, (hf t).1]; exact hab.1, ?_⟩
      intro d hd
      rcases (hf s).2 with e | e
      · rw [e] at hd
        rcases (hf t).2 with e1 | e1
        · rw [e1]
          exact hab.2 d hd
        · rw [e1]
          simp [Session.new]
      · rw [e] at hd
        simp [Session.new] at hd
  · rw [if_neg c]
    have c1 : ∀ t ∈ m, t.id ≠ id := by
      intro t ht e
      exact c ((Registry.has_iff _ _).mpr ⟨t, ht, e⟩)
    refine ⟨?_, ?_⟩
    · intro s hs
      rcases List.mem_append.mp hs with hs | hs
      · exact h.1 s hs
      · rw [List.mem_singleton.mp hs]
        exact Or.inl ⟨rfl, rfl⟩
    · rw [List.pairwise_append]
      refine ⟨h.2, List.pairwise_singleton _ _, ?_⟩
      intro a ha b hb
      rw [List.mem_singleton.mp hb]
      exact ⟨c1 a ha, fun d _ => by simp [Session.new]⟩

theorem SlotInv.store_slot {m : Registry} (h : SlotInv m) {s0 : Session} (h0 : s0 ∈ m)
    {k : Nat} (hk : k < MAX_SESSIONS)
    (hfree : isUsed m (BASE_DISPLAY + k) = false) : SlotInv (m.store (s0.withSlot k)) := by
  rw [isUsed_false_iff] at hfree
  have hsame : ∀ t ∈ m, t.id = s0.id → t = s0 := fun t ht e => h.wf.eq_of_id ht h0 e
  have hf : ∀ t ∈ m,
      ((if (t.id == (s0.withSlot k).id) = true then s0.withSlot k else t) = t ∧ t.id ≠ s0.id) ∨
      ((if (t.id == (s0.withSlot k).id) = true then s0.withSlot k else t) = s0.withSlot k ∧
        t = s0) := by
    intro t ht
    by_cases c : t.id = s0.id
    · right
      have c1 : (t.id == (s0.withSlot k).id) = true := by simpa [Session.withSlot] using c
      rw [if_pos c1]
      exact ⟨rfl, hsame t ht c⟩
    · left
      have c1 : (t.id == (s0.withSlot k).id) = false := by simpa [Session.withSlot] using c
      rw [c1]
      exact ⟨rfl, c⟩
  unfold Registry.store
  apply h.map
  · intro t ht
    rcases hf t ht with ⟨e, _⟩ | ⟨e, _⟩
    · rw [e]
      exact h.1 t ht
    · rw [e]
      exact Or.inr ⟨k, hk, rfl, rfl⟩
  · intro s hs t ht hab
    rcases hf s hs with ⟨e, es⟩ | ⟨e, es⟩ <;> rcases hf t ht with ⟨e1, et⟩ | ⟨e1, et⟩
    · rw [e, e1]
      exact hab
    · rw [e, e1]
      refine ⟨es, ?_⟩
      intro d hd e2
      have e3 : some d = some (BASE_DISPLAY + k) := by
        rw [← e2]
        rfl
      rw [← e3] at hfree
      exact hfree s hs hd
    · rw [e, e1]
      refine ⟨fun e2 => et e2.symm, ?_⟩
      intro d hd e2
      have e3 : some (BASE_DISPLAY + k) = some d := hd
      rw [← e3] at e2
      exact hfree t ht e2
    · exact absurd (by rw [es, et]) hab.1

theorem SlotInv.after_apiInit {m : Registry} (h : SlotInv m) (id : String) (now : Int) :
    SlotInv (apiInit m id now).2 := by
  have h1 := h.set_new id now
  have hmem := Registry.mem_set_self m (Session.new id now)
  rcases allocateResources_cases (m.set (Session.new id now)) (Session.new id now) with
    ⟨k, hk, hfree, _, e⟩ | ⟨_, e⟩
  · have e1 : apiInit m id now =
        (.ok ((Session.new id now).withSlot k),
         (m.set (Session.new id now)).store ((Session.new id now).withSlot k)) := by
      simp [apiInit, Session.start, e]
    rw [e1]
    exact h1.store_slot hmem hk hfree
  · have e1 : apiInit m id now =
        (.error "Server at maximum capacity. Try again later.", m.set (Session.new id now)) := by
      simp [apiInit, Session.start, e]
    rw [e1]
    exact h1

theorem runCode_fields (self : Session) (w : World) (code : String) (env : RunEnv) :
    (self.runCode w code env).self.id = self.id ∧
    (self.runCode w code env).self.displayNum = self.displayNum ∧
    (self.runCode w code env).self.port = self.port ∧
    (self.runCode w code env).world.sessions = w.sessions := by
  obtain ⟨k1, k2, _, _, _, _⟩ := killPrevious_spec (self.updateActivity env.now) w
  rcases runCode_cases self w code env with ⟨_, _, _, _, c5, c6⟩ | ⟨_, _, c3, c4⟩
  · rw [c5, c6, k1]
    exact ⟨rfl, rfl, rfl, k2⟩
  · rw [c3, c4, k1]
    exact ⟨rfl, rfl, rfl, k2⟩

theorem startupStep_data (l : Launch) (self : Session) (w : World) (output : String) :
    ∃ st, startupStep (l, self, w) (.data output) = .ok st ∧
      st.2.2 = { w with sessions := w.sessions.store st.2.1 } ∧
      st.2.1.id = self.id ∧ st.2.1.displayNum = self.displayNum ∧
      st.2.1.port = self.port := by
  by_cases c : (!l.resolved && includes output "xpra is ready") = true
  · simp only [startupStep, onReady, c, if_true]
    exact ⟨_, rfl, rfl, rfl, rfl, rfl⟩
  · simp only [startupStep, onReady, c, if_false]
    exact ⟨_, rfl, rfl, rfl, rfl, rfl⟩

theorem SlotInv.after_step {w : World} (h : SlotInv w.sessions) (op : Op) :
    SlotInv (step w op).sessions := by
  cases op with
  | init id now => exact h.after_apiInit id now
  | spawned id =>
    cases hg : w.sessions.get id with
    | none =>
      simp only [step, hg]
      exact h
    | some self =>
      simp only [step, hg]
      exact h.store (Registry.get_some hg).1 rfl rfl rfl
  | startup id l e =>
    cases hg : w.sessions.get id with
    | none =>
      simp only [step, hg]
      exact h
    | some self =>
      have hmem := (Registry.get_some hg).1
      cases e with
      | data output =>
        obtain ⟨st, hst, f0, f1, f2, f3⟩ := startupStep_data l self w output
        simp only [step, hg, hst]
        rw [f0]
        exact h.store hmem f1 f2 f3
      | exit code =>
        obtain ⟨st, hst, _, _, hsess, _, _⟩ := cleanup_eq self
          { w with alive :=
              match self.xpraProcess with
              | some p => w.alive.filter (fun q => q != p.pid)
              | none => w.alive }
        simp only [step, hg, startupStep, onExit, hst]
        show SlotInv st.2.sessions
        rw [hsess]
        exact h.delete _
      | timer =>
        simp only [step, hg, startupStep]
        exact h
  | cleanup self =>
    obtain ⟨st, hst, _, _, hsess, _, _⟩ := cleanup_eq self w
    simp only [step, hst]
    rw [hsess]
    exact h.delete _
  | heartbeat sessionId now =>
    cases hg : w.sessions.get sessionId with
    | none =>
      simp only [step, apiHeartbeat, hg]
      exact h
    | some self =>
      simp only [step, apiHeartbeat, hg]
      exact h.store (Registry.get_some hg).1 rfl rfl rfl
  | run sessionId code env =>
    cases hg : w.sessions.get sessionId with
    | none =>
      simp only [step, apiRun, hg]
      exact h
    | some self =>
      obtain ⟨f1, f2, f3, f4⟩ := runCode_fields self w code env
      simp only [step, apiRun, hg]
      rw [f4]
      exact h.store (Registry.get_some hg).1 f1 f2 f3
  | reap now =>
    obtain ⟨w1, h1, h2⟩ := reaper_eq now w h.wf
    simp only [step, h1]
    rw [h2]
    exact h.sublist (List.filter_sublist _)

theorem SlotInv.after_exec (ops : List Op) :
    ∀ w : World, SlotInv w.sessions → SlotInv (exec w ops).sessions := by
  induction ops with
  | nil => exact fun w h => h
  | cons op rest ih => exact fun w h => ih _ (h.after_step op)

theorem SlotInv.empty : SlotInv World.empty.sessions :=
  ⟨fun _ hs => absurd hs (List.not_mem_nil _), List.Pairwise.nil⟩

theorem SlotInv.holders_le {m : Registry} (h : SlotInv m) :
    (slotHolders m).length ≤ MAX_SESSIONS := by
  have hsub : SlotInv (slotHolders m) := h.sublist (List.filter_sublist m)
  have hsome : ∀ s ∈ slotHolders m, ∃ k, k < MAX_SESSIONS ∧
      s.displayNum = some (BASE_DISPLAY + k) := by
    intro s hs
    have h1 := (List.mem_filter.mp hs).2
    rcases hsub.1 s hs with ⟨e, _⟩ | ⟨k, hk, e, _⟩
    · rw [e] at h1
      exact absurd h1 (by simp)
    · exact ⟨k, hk, e⟩
  have hnd : ((slotHolders m).map (fun s => s.displayNum.getD 0)).Nodup := by
    unfold List.Nodup
    rw [List.pairwise_map]
    refine (List.Pairwise.and_mem.mp hsub.2).imp ?_
    rintro a b ⟨ha, _, hab⟩ e
    obtain ⟨k, _, ea⟩ := hsome a ha
    refine hab.2 _ ea ?_
    have e1 : a.displayNum.getD 0 = b.displayNum.getD 0 := e
    obtain ⟨k1, _, eb⟩ := hsome b (by assumption)
    rw [ea, eb] at e1
    rw [eb]
    exact congrArg some e1.symm
  have hsubset : (slotHolders m).map (fun s => s.displayNum.getD 0) ⊆
      (List.range MAX_SESSIONS).map (fun k => BASE_DISPLAY + k) := by
    intro d hd
    obtain ⟨s, hs, e⟩ := List.mem_map.mp hd
    obtain ⟨k, hk, es⟩ := hsome s hs
    rw [es] at e
    exact List.mem_map.mpr ⟨k, List.mem_range.mpr hk, e⟩
  have hlen := (hnd.subperm hsubset).length_le
  simpa using hlen

/-- C2: in every state the server reaches from the empty registry by session
initiations (insertion, then allocation), spawns and startup events of display
processes, teardowns, heartbeats, code runs and passes of the reaper, no two
entries of the registry have the same non-null `displayNum`, nor the same
non-null `port`, and at most `MAX_SESSIONS` entries hold a slot. -/
theorem registry_slots_distinct (ops : List Op) :
    (exec World.empty ops).sessions.Pairwise
      (fun s t => (∀ d, s.displayNum = some d → t.displayNum ≠ some d) ∧
        (∀ p, s.port = some p → t.port ≠ some p)) ∧
    (slotHolders (exec World.empty ops).sessions).length ≤ MAX_SESSIONS ∧
    MAX_SESSIONS = 5 := by
  have hinv : SlotInv (exec World.empty ops).sessions :=
    SlotInv.after_exec ops World.empty SlotInv.empty
  refine ⟨?_, hinv.holders_le, rfl⟩
  refine (List.Pairwise.and_mem.mp hinv.2).imp ?_
  rintro a b ⟨ha, hb, hab⟩
  refine ⟨hab.2, ?_⟩
  intro p hp e
  rcases hinv.1 a ha with ⟨_, e1⟩ | ⟨k, _, e1, e2⟩
  · rw [e1] at hp
    exact absurd hp (by simp)
  · rcases hinv.1 b hb with ⟨_, e3⟩ | ⟨k1, _, e3, e4⟩
    · rw [e3] at e
      exact absurd e (by simp)
    · rw [e2] at hp
      rw [e4] at e
      have hk : k1 = k := by
        have h1 : BASE_XPRA_PORT + k1 = p := Option.some.inj e
        have h2 : BASE_XPRA_PORT + k = p := Option.some.inj hp
        omega
      rw [hk] at e3
      exact hab.2 _ e1 e3

/-- Witness of C2: the invariant on the state reached by a sample trace. -/
theorem registry_slots_distinct_witness :
    (slotHolders (exec World.empty sampleOps).sessions).length ≤ MAX_SESSIONS :=
  (registry_slots_distinct sampleOps).2.1

end GraphicsServer
